import Mathlib

/-!
Verification of the `adctest` page-object runtime against its natural-language
specification.  The Python sources under `adctest/` are shallowly embedded:
pure helpers become Lean functions, stateful page/driver code becomes explicit
state passing, and code that raises becomes `Except`-valued.  Library calls that
the repository delegates (lxml parsing, `urllib.parse.urlsplit`, the browser's
XPath engine) are modelled at their documented interface: a parsed HTML tree,
a split-URL record, and an evaluator for the exact XPath fragment the code
emits.
-/

set_option autoImplicit false

/-! ### Python dictionaries as association lists

`dict` values are embedded as association lists ordered by insertion.
`pyInsert` mirrors `d[k] = v` (update in place when the key exists, append
otherwise), `pyErase` mirrors `d.pop(k, None)`, `pyLookup` mirrors `d.get(k)`
and `pyContains` mirrors `k in d`. -/

def pyLookup {α : Type} : List (String × α) → String → Option α
  | [], _ => none
  | (k, v) :: rest, key => if k = key then some v else pyLookup rest key

def pyContains {α : Type} (d : List (String × α)) (key : String) : Bool :=
  (pyLookup d key).isSome

def pyInsert {α : Type} : List (String × α) → String → α → List (String × α)
  | [], key, val => [(key, val)]
  | (k, v) :: rest, key, val =>
    if k = key then (k, val) :: rest else (k, v) :: pyInsert rest key val

inductive PyVal : Type where
  | str : String → PyVal
  | bool : Bool → PyVal
  | int : Int → PyVal
deriving DecidableEq, Repr

/-- Python `==` on the embedded value fragment: `True == 1`, `False == 0`,
strings never equal bools or ints. -/
def pyEq : PyVal → PyVal → Bool
  | PyVal.str a, PyVal.str b => a = b
  | PyVal.bool a, PyVal.bool b => a = b
  | PyVal.int a, PyVal.int b => a = b
  | PyVal.bool a, PyVal.int b => (if a then (1 : Int) else 0) = b
  | PyVal.int a, PyVal.bool b => a = (if b then (1 : Int) else 0)
  | _, _ => false

/-- Python `x in lst`: some element of `lst` compares `==` to `x`. -/
def pyIn (x : PyVal) (l : List PyVal) : Bool :=
  l.any (fun e => pyEq x e)

/-- `TRUE_VALUES = ['true', 'True', '1', 'yes', True, 1]` -/
def TRUE_VALUES : List PyVal :=
  [PyVal.str "true", PyVal.str "True", PyVal.str "1", PyVal.str "yes",
   PyVal.bool true, PyVal.int 1]

/-- `FALSE_VALUES = ['false', 'False', '0', 'no', False, 0]` -/
def FALSE_VALUES : List PyVal :=
  [PyVal.str "false", PyVal.str "False", PyVal.str "0", PyVal.str "no",
   PyVal.bool false, PyVal.int 0]

/-- `str_or_bool` from `adctest/helpers/funs.py`. -/
def str_or_bool (value : PyVal) : PyVal :=
  if pyIn value TRUE_VALUES then PyVal.bool true
  else if pyIn value FALSE_VALUES then PyVal.bool false
  else value

/-! ### Character-list string helpers

Python string operations are embedded structurally over `List Char` so that
every definition evaluates by `decide`/`rfl`.  `splitOnChar` mirrors
`s.split(c)` (note `''.split(c) == ['']`), `splitTwo` mirrors
`s.split(c, 1)` when the separator occurs, and `pyStrip` mirrors
`s.strip()` for ASCII whitespace. -/

def splitOnChar (c : Char) : List Char → List (List Char)
  | [] => [[]]
  | x :: xs =>
    let rest := splitOnChar c xs
    if x = c then [] :: rest
    else
      match rest with
      | [] => [[x]]
      | r :: rs => (x :: r) :: rs

def splitTwo (c : Char) : List Char → Option (List Char × List Char)
  | [] => none
  | x :: xs =>
    if x = c then some ([], xs)
    else (splitTwo c xs).map (fun p => (x :: p.1, p.2))

def pyStrip (l : List Char) : List Char :=
  ((l.dropWhile Char.isWhitespace).reverse.dropWhile Char.isWhitespace).reverse

/-! ### `adctest/helpers/utils.py`: `format_id` and `get_id_from_url`

`urlsplit` is library code; its result is embedded as a `SplitResult` record
carrying the two fields the function reads (`path`, `query`).  `parse_qs` is
modelled for plain ASCII queries without percent-escapes: split on `&`, split
each piece at the first `=`, drop pieces with a blank value (the library's
`keep_blank_values=False` default). -/

structure SplitResult : Type where
  path : String
  query : String
deriving DecidableEq, Repr

/-- Digits of a decimal literal to a natural number; `none` unless the list is
non-empty and all digits. -/
def decDigits? (l : List Char) : Option Nat :=
  match l with
  | [] => none
  | _ =>
    l.foldl
      (fun acc c =>
        match acc with
        | none => none
        | some n => if c.isDigit then some (10 * n + (c.toNat - 48)) else none)
      (some 0)

/-- Python `int(s)`: strip, optional sign, digits (the underscore-separator
extension of Python literals is outside the embedded fragment). -/
def pyParseInt (s : String) : Option Int :=
  match pyStrip s.data with
  | '+' :: rest => (decDigits? rest).map (fun n => (n : Int))
  | '-' :: rest => (decDigits? rest).map (fun n => -(n : Int))
  | l => (decDigits? l).map (fun n => (n : Int))

/-- `format_id` from `adctest/helpers/utils.py`: `int(id_form.strip())` with
`None` on failure. -/
def format_id (id_form : String) : Option Int :=
  pyParseInt id_form

/-- `parse_qsl`-style pair list for the embedded `parse_qs` model. -/
def parseQsPairs (query : String) : List (String × String) :=
  (splitOnChar '&' query.data).filterMap
    (fun piece =>
      match splitTwo '=' piece with
      | none => none
      | some (k, v) =>
        if v = [] then none else some (String.mk k, String.mk v))

/-- `parse_qs(query)[name][0]` when `name in parse_qs(query)`, else `none`. -/
def firstQueryValue (query : String) (name : String) : Option String :=
  (((parseQsPairs query).filter (fun p => p.1 = name)).head?).map Prod.snd

/-- `res.path.split('/')[-1]`. -/
def pathLastSegment (path : String) : String :=
  String.mk ((splitOnChar '/' path.data).getLastD [])

/-- `get_id_from_url` from `adctest/helpers/utils.py`, over the `urlsplit`
result.  When the query has an `id` parameter the function returns
`format_id` of its first value directly — also when that is `None`. -/
def get_id_from_url (r : SplitResult) : Option Int :=
  match (if r.query ≠ "" then firstQueryValue r.query "id" else none) with
  | some v => format_id v
  | none => if r.path ≠ "" then format_id (pathLastSegment r.path) else none

/-- `re.split` with a `[...]+` pattern: pieces between maximal separator runs
(empty pieces at the boundaries included).  A separator character followed by
another separator contributes nothing new — the run has already opened the
piece boundary. -/
def splitSepRuns (isSep : Char → Bool) : List Char → List (List Char)
  | [] => [[]]
  | x :: xs =>
    let rest := splitSepRuns isSep xs
    if isSep x then
      match xs with
      | [] => [] :: rest
      | y :: _ => if isSep y then rest else [] :: rest
    else
      match rest with
      | [] => [[x]]
      | r :: rs => (x :: r) :: rs

/-- The separator class of `[-_\W]+` (ASCII): `-`, `_`, or not a word char. -/
def isSepDashUnderscore (c : Char) : Bool :=
  c = '-' || c = '_' || !(c.isAlphanum || c = '_')

/-- The separator class of `[_\W]+` (ASCII): `_` or not a word char. -/
def isSepUnderscore (c : Char) : Bool :=
  c = '_' || !(c.isAlphanum || c = '_')

/-- `sep.join(parts)` on char lists. -/
def joinSep (sep : Char) : List (List Char) → List Char
  | [] => []
  | [x] => x
  | x :: xs => x ++ sep :: joinSep sep xs

/-- Python `str.capitalize()`: first character uppercased, the rest
lowercased. -/
def pyCapitalize : List Char → List Char
  | [] => []
  | c :: rest => c.toUpper :: rest.map Char.toLower

/-- `Utils.format_name_to_python_format` from `adctest/parser/utils.py`.
`none` models the `IndexError` that `name[0]` raises on an empty string. -/
def format_name_to_python_format (name : String) : Option String :=
  match name.data.map Char.toLower with
  | [] => none
  | c :: rest =>
    let lowered := c :: rest
    let prefixed := if c.isDigit then 'p' :: lowered else lowered
    let parts :=
      (splitSepRuns isSepDashUnderscore prefixed).filter (fun t => pyStrip t ≠ [])
    some (String.mk (joinSep '_' parts))

/-- `Utils.get_class_name_from_file_name` from `adctest/parser/utils.py`,
taking the file stem. -/
def get_class_name_from_file_name (stem : String) : Option String :=
  (format_name_to_python_format stem).map
    (fun new_name =>
      let parts :=
        (splitSepRuns isSepUnderscore new_name.data).filter (fun t => pyStrip t ≠ [])
      String.mk (List.flatten (parts.map pyCapitalize)))

/-- A lexically valid Python identifier (ASCII fragment): non-empty, first
character a letter or `_`, the rest alphanumeric or `_`. -/
def isValidPythonIdentifier (s : String) : Bool :=
  match s.data with
  | [] => false
  | c :: rest => (c.isAlpha || c = '_') && rest.all (fun d => d.isAlphanum || d = '_')

/-! ### `adctest/pages/base_attributes.py`: descriptors and proxies

`ElementDescriptor` holds a locator; `WebElementProxy` wraps a raw
`WebElement` (embedded as a `Nat` id).  Python string truthiness on optional
string attributes is `pyTruthyOptStr`. -/

def pyTruthyOptStr : Option String → Bool
  | none => false
  | some s => s ≠ ""

structure ElementDescriptor : Type where
  search_by : String
  value : String
  many : Bool
  element_name : Option String
deriving DecidableEq, Repr

/-- `ElementDescriptor.__init__`: defaults `search_by` to `'xpath'` when a
truthy `value` is given without one, then `_validate_params` raises unless
both `search_by` and `value` are truthy. -/
def ElementDescriptor.make (search_by : Option String) (value : Option String)
    (many : Bool) : Except String ElementDescriptor :=
  let sb := if pyTruthyOptStr value && !pyTruthyOptStr search_by
    then some "xpath" else search_by
  if !pyTruthyOptStr sb || !pyTruthyOptStr value then
    Except.error "[value, search_by] param must be passed to ElementDescriptor"
  else
    Except.ok { search_by := sb.getD "", value := value.getD "", many := many,
                element_name := none }

/-- `str.strip('_')`: drop leading and trailing underscores. -/
def stripUnderscores (s : String) : String :=
  String.mk (((s.data.dropWhile (fun c => c = '_')).reverse.dropWhile
    (fun c => c = '_')).reverse)

structure ListOfElementDescriptor : Type where
  base_name_parts : List String
  many : Bool
  tag_attr_name : String
deriving DecidableEq, Repr

/-- `ListOfElementDescriptor.__init__`: each base part is stripped of leading
and trailing underscores. -/
def ListOfElementDescriptor.make (base_name_parts : List String) (many : Bool)
    (tag_attr_name : String) : ListOfElementDescriptor :=
  { base_name_parts := base_name_parts.map stripUnderscores, many := many,
    tag_attr_name := tag_attr_name }

/-- `ListOfElementDescriptor._make_attr_name`: stringify the arguments, check
the count, pair each base part with its argument joined by `_`, and join the
pairs with `_`. -/
def ListOfElementDescriptor.makeAttrName (l : ListOfElementDescriptor)
    (args : List Int) : Except String String :=
  let params := args.map (fun n => toString n)
  if params.length ≠ l.base_name_parts.length then
    Except.error "You pass to get method wrong number of params"
  else
    let indexed_names :=
      (l.base_name_parts.zip params).foldl
        (fun acc val => acc ++ [val.1 ++ "_" ++ val.2]) []
    Except.ok (String.intercalate "_" indexed_names)

/-- `ListOfElementDescriptor._print_search_value`:
`f'//*[@{self.tag_attr_name}="{attr_name}"]'`. -/
def ListOfElementDescriptor.printSearchValue (l : ListOfElementDescriptor)
    (attr_name : String) : String :=
  "//*[@" ++ l.tag_attr_name ++ "=\"" ++ attr_name ++ "\"]"

/-- `ListOfElementDescriptor.get` up to the descriptor it constructs and
resolves: `_make_attr_name`, then `_construct_attribute_descriptor`, which
builds an `ElementDescriptor` over the XPath template and sets its name. -/
def ListOfElementDescriptor.getDescriptor (l : ListOfElementDescriptor)
    (args : List Int) : Except String ElementDescriptor :=
  match l.makeAttrName args with
  | Except.error e => Except.error e
  | Except.ok attr_name =>
    match ElementDescriptor.make (some "xpath")
        (some (l.printSearchValue attr_name)) l.many with
    | Except.error e => Except.error e
    | Except.ok d => Except.ok { d with element_name := some attr_name }

/-! ### `WebElementProxy` and the element cache

A raw selenium `WebElement` is embedded as a `Nat` id.  A page's
`_cached_attrs` dict maps attribute names to a cached proxy (or list of
proxies, for `many=True` descriptors). -/

structure WebElementProxy : Type where
  obj : Nat
  locator : String × String
  attr_name : Option String
deriving DecidableEq, Repr

inductive CacheVal : Type where
  | single : WebElementProxy → CacheVal
  | many : List WebElementProxy → CacheVal
deriving DecidableEq, Repr

abbrev Cache : Type := List (String × CacheVal)

/-- The driver part of a page: whether `check_opened` passes and what the
driver's find calls return (`none` / `[]` model `NoSuchElementException` and
the not-found cases). -/
structure PageEnv : Type where
  opened : Bool
  findElement : String → String → Option Nat
  findElements : String → String → List Nat

/-- Wrapping a found raw element in a `WebElementProxy` carrying the
descriptor's locator and attribute name. -/
def ElementDescriptor.wrapProxy (d : ElementDescriptor) (e : Nat) : WebElementProxy :=
  { obj := e, locator := (d.search_by, d.value), attr_name := d.element_name }

/-- `ElementDescriptor._search_element`: one driver search, every found
element wrapped in a proxy. -/
def ElementDescriptor.searchElement (d : ElementDescriptor) (env : PageEnv) :
    Except String CacheVal :=
  if d.many then
    match env.findElements d.search_by d.value with
    | [] => Except.error "Elements not found"
    | es => Except.ok (CacheVal.many (es.map d.wrapProxy))
  else
    match env.findElement d.search_by d.value with
    | none => Except.error "NoSuchElementException"
    | some e => Except.ok (CacheVal.single (d.wrapProxy e))

/-- `ElementDescriptor.__get__` on a page instance: `check_opened` first, then
the `_cached_attrs` lookup, searching and storing only on a miss.  The third
component counts driver searches performed by the call. -/
def ElementDescriptor.getOnPage (d : ElementDescriptor) (env : PageEnv)
    (cache : Cache) : Except String CacheVal × Cache × Nat :=
  if env.opened = false then (Except.error "PageNotOpened", cache, 0)
  else
    match pyLookup cache (d.element_name.getD "") with
    | some v => (Except.ok v, cache, 0)
    | none =>
      match d.searchElement env with
      | Except.error e => (Except.error e, cache, 1)
      | Except.ok v => (Except.ok v, pyInsert cache (d.element_name.getD "") v, 1)

/-! ### `catch_not_attach_to_session`: stale-element retry

A forwarded method call on the wrapped element either returns, raises
`StaleElementReferenceException`, raises `NoSuchElementException`, or raises
another `WebDriverException`; `MethodOutcome` enumerates these.  `CallResult`
is what the decorated call produces: the wrapper re-raises
`NoSuchElementException` as is, wraps a first-call `WebDriverException` in
`WebElementProxyException`, and on a first-call stale reloads the wrapped
element once and calls again, letting any second-call exception propagate
raw. -/

structure PageState : Type where
  cached_attrs : Cache
  current_url : String
  window_handles : List String
  focused : Option String
deriving DecidableEq, Repr

def driverGet (s : PageState) (url : String) : PageState :=
  { s with current_url := url }

def waitPageLoaded (s : PageState) : PageState :=
  s

/-- `AbstractBasePage._close_tabs`: switch to and close each given tab. -/
def closeTabs (s : PageState) (tabs : List String) : PageState :=
  { s with window_handles := s.window_handles.filter (fun t => t ∉ tabs) }

/-- `AbstractBasePage._open`: clear `_cached_attrs`, navigate, wait for the
page to load. -/
def abstractPageOpen (s : PageState) (url : String) : PageState :=
  waitPageLoaded (driverGet { s with cached_attrs := [] } url)

/-- `AbstractBasePage.open_redirect_url`: clear `_cached_attrs` and
navigate. -/
def open_redirect_url (s : PageState) (url : String) : PageState :=
  driverGet { s with cached_attrs := [] } url

/-- `AbstractBasePage.focus_on_last_opened_tab`: with more than one tab open,
clear the cache, close every tab but the last, focus it. -/
def focus_on_last_opened_tab (s : PageState) : PageState :=
  if s.window_handles.length > 1 then
    let s1 := { s with cached_attrs := [] }
    let all_tabs := s1.window_handles
    let tab_to_focus := all_tabs.getLastD ""
    let s2 := closeTabs s1 all_tabs.dropLast
    { s2 with focused := some tab_to_focus }
  else s

/-- `AbstractBasePage.focus_on_first_opened_tab`: with more than one tab
open, clear the cache, close every tab but the first, focus it. -/
def focus_on_first_opened_tab (s : PageState) : PageState :=
  if s.window_handles.length > 1 then
    let s1 := { s with cached_attrs := [] }
    let all_tabs := s1.window_handles
    let tab_to_focus := all_tabs.headD ""
    let s2 := closeTabs s1 (all_tabs.drop 1)
    { s2 with focused := some tab_to_focus }
  else s

/-! ### `adctest/pages/base.py`: `BasePageMeta`

Class and config dicts are embedded as association lists over `AttrVal`
(string / list-of-strings / bool / `None` / callable values; `callable`
stands for the methods `get_parents_classes_attrs` skips).  `urljoin` is
`urllib.parse` library code and is passed in as a function.  `MetaError`
distinguishes `BasePageException` from the `AttributeError` that
`config.BASE_APP_CONFIG.get(app_name)` returning `None` would produce, and
from `TypeError`s on non-string/list values outside the embedded fragment. -/

inductive AttrVal : Type where
  | str : String → AttrVal
  | strList : List String → AttrVal
  | bool : Bool → AttrVal
  | pyNone : AttrVal
  | callable : AttrVal
deriving DecidableEq, Repr

def pyTruthyAttr : AttrVal → Bool
  | AttrVal.str s => s ≠ ""
  | AttrVal.strList l => l ≠ []
  | AttrVal.bool b => b
  | AttrVal.pyNone => false
  | AttrVal.callable => true

/-- Python `dict.update`. -/
def pyUpdate {α : Type} (d e : List (String × α)) : List (String × α) :=
  e.foldl (fun acc kv => pyInsert acc kv.1 kv.2) d

/-- `key.startswith('__')`, structural so the kernel can evaluate it. -/
def startsWithDunder (s : String) : Bool :=
  match s.data with
  | '_' :: '_' :: _ => true
  | _ => false

/-- `get_parents_classes_attrs` from `adctest/helpers/utils.py`: merge the
parents' dicts in reversed order, then drop dunder keys and callables. -/
def get_parents_classes_attrs (bases : List (List (String × AttrVal))) :
    List (String × AttrVal) :=
  let attrs_dict := bases.reverse.foldl (fun acc d => pyUpdate acc d) []
  attrs_dict.filter
    (fun kv => !(startsWithDunder kv.1) && !(kv.2 = AttrVal.callable : Bool))

inductive MetaError : Type where
  | basePageException : String → MetaError
  | attributeError : MetaError
  | typeError : MetaError
deriving DecidableEq, Repr

structure NewPageClass : Type where
  base_url : String
  page_url : String
  valid_urls : List String
  has_page_ready_script : AttrVal
  page_loader_css_class : AttrVal
  table_loader_css_class : AttrVal
  modal_visible_css_class : AttrVal
deriving DecidableEq, Repr

/-- `all_attrs.pop(attr_name, None) or app_config.get(attr_name)`. -/
def resolveCssAttr (merged cfg : List (String × AttrVal)) (name : String) :
    AttrVal :=
  let popped := (pyLookup merged name).getD AttrVal.pyNone
  if pyTruthyAttr popped then popped
  else (pyLookup cfg name).getD AttrVal.pyNone

/-- `BasePageMeta.__new__` from `adctest/pages/base.py`: collect the class
attributes (own over inherited), validate `app_name`, the app config's
`base_url`, `page_url` and the three loader/modal css classes, and build the
class fields, joining `page_url` and every valid url onto `base_url`. -/
def BasePageMeta.new (urljoin : String → String → String)
    (base_app_config : List (String × List (String × AttrVal)))
    (bases : List (List (String × AttrVal)))
    (attrs : List (String × AttrVal)) : Except MetaError NewPageClass :=
  let all_attrs := pyUpdate (get_parents_classes_attrs bases) attrs
  let app_name_val := (pyLookup all_attrs "app_name").getD AttrVal.pyNone
  if pyTruthyAttr app_name_val = false then
    Except.error (MetaError.basePageException
      "Page object must have \"app_name\" attribute")
  else
    match app_name_val with
    | AttrVal.str app_name =>
      match pyLookup base_app_config app_name with
      | none => Except.error MetaError.attributeError
      | some app_config =>
        let base_url_val := (pyLookup app_config "base_url").getD AttrVal.pyNone
        if pyTruthyAttr base_url_val = false then
          Except.error (MetaError.basePageException
            ("Base url not found in config for project " ++ app_name ++
              ". Fix it!!!"))
        else
          match base_url_val with
          | AttrVal.str base_url =>
            match (pyLookup all_attrs "page_url").getD AttrVal.pyNone with
            | AttrVal.pyNone =>
              Except.error (MetaError.basePageException
                "Page object must have \"page_url\" attribute")
            | AttrVal.str page_url =>
              match (pyLookup all_attrs "valid_urls").getD (AttrVal.strList []) with
              | AttrVal.strList valid_urls =>
                let hprs :=
                  (pyLookup app_config "has_page_ready_script").getD
                    (AttrVal.bool false)
                let plc := resolveCssAttr all_attrs app_config
                  "page_loader_css_class"
                let tlc := resolveCssAttr all_attrs app_config
                  "table_loader_css_class"
                let mvc := resolveCssAttr all_attrs app_config
                  "modal_visible_css_class"
                if plc = AttrVal.pyNone then
                  Except.error (MetaError.basePageException
                    ("page_loader_css_class attribute must be set in config" ++
                      " for current app " ++ app_name))
                else if tlc = AttrVal.pyNone then
                  Except.error (MetaError.basePageException
                    ("table_loader_css_class attribute must be set in config" ++
                      " for current app " ++ app_name))
                else if mvc = AttrVal.pyNone then
                  Except.error (MetaError.basePageException
                    ("modal_visible_css_class attribute must be set in config" ++
                      " for current app " ++ app_name))
                else
                  Except.ok
                    { base_url := base_url,
                      page_url := urljoin base_url page_url,
                      valid_urls := (valid_urls ++ [page_url]).map
                        (urljoin base_url),
                      has_page_ready_script := hprs,
                      page_loader_css_class := plc,
                      table_loader_css_class := tlc,
                      modal_visible_css_class := mvc }
              | _ => Except.error MetaError.typeError
            | _ => Except.error MetaError.typeError
          | _ => Except.error MetaError.typeError
    | _ => Except.error MetaError.typeError

/-! ### `adctest/pages/uicomponents/helpers/parsers.py`: `parse_table_thead`

lxml's `fromstring` is library code; its result is embedded as an
`HtmlTree` (tag, `.text` — the text before the first child —, attribute
pairs in document order, direct children).  The parser itself only walks
direct children, so the embedding mirrors `iterchildren`, `.items()` and
`.text` directly. -/

inductive HtmlTree : Type where
  | node : String → Option String → List (String × String) → List HtmlTree →
      HtmlTree

def HtmlTree.tag : HtmlTree → String
  | HtmlTree.node t _ _ _ => t

def HtmlTree.text : HtmlTree → Option String
  | HtmlTree.node _ x _ _ => x

def HtmlTree.attrs : HtmlTree → List (String × String)
  | HtmlTree.node _ _ a _ => a

def HtmlTree.children : HtmlTree → List HtmlTree
  | HtmlTree.node _ _ _ c => c

/-- `format_tag_text`: `str(None)` when the text is `None`, else
`text.strip()` followed by `replace('\n', '')`. -/
def format_tag_text (text : Option String) : String :=
  match text with
  | none => "None"
  | some t => String.mk ((pyStrip t.data).filter (fun c => c ≠ '\n'))

/-- The `tr` element `parse_table_thead` works on: a `div` root's first `tr`
child, or the root itself when it is a `tr`. -/
def findTrElement (root : HtmlTree) : Option HtmlTree :=
  if root.tag = "div" then root.children.find? (fun c => c.tag = "tr")
  else if root.tag = "tr" then some root
  else none

/-- The `defaultdict(dict)` result: outer key to inner dict of key → column
index. -/
abbrev ThMap : Type := List (String × List (String × Nat))

def pyLookup2 (m : ThMap) (a b : String) : Option Nat :=
  pyLookup ((pyLookup m a).getD []) b

def pyContains2 (m : ThMap) (a b : String) : Bool :=
  pyContains ((pyLookup m a).getD []) b

/-- `res[a][b] = v` on a `defaultdict(dict)`. -/
def dictInsert2 (m : ThMap) (a b : String) (v : Nat) : ThMap :=
  pyInsert m a (pyInsert ((pyLookup m a).getD []) b v)

/-- The attribute pass over one `th`: `for name, value in item.items(): if
value and name in attributes: res[name][value] = index`. -/
def attrFold (attrs : List String) (idx : Nat) (l : List (String × String))
    (r : ThMap) : ThMap :=
  l.foldl
    (fun r nv =>
      if nv.2 ≠ "" ∧ nv.1 ∈ attrs then dictInsert2 r nv.1 nv.2 idx else r) r

/-- The main loop of `parse_table_thead` over the `tr`'s children, carrying
the next column index. -/
def theadLoop (k1 : String) (attrs : List String) :
    List HtmlTree → Nat → ThMap → Except String ThMap
  | [], _, res => Except.ok res
  | item :: rest, index, res =>
    if item.tag = "th" then
      let formatted_key := format_tag_text item.text
      if pyContains res k1 && pyContains2 res k1 formatted_key then
        Except.error ("Duplicate value=" ++ formatted_key ++
          " of th.text in header of table")
      else
        theadLoop k1 attrs rest (index + 1)
          (attrFold attrs index item.attrs (dictInsert2 res k1 formatted_key index))
    else theadLoop k1 attrs rest index res

/-- `parse_table_thead` from
`adctest/pages/uicomponents/helpers/parsers.py`. -/
def parse_table_thead (root : HtmlTree) (tag_text_key : String)
    (attributes : List String) : Except String ThMap :=
  match findTrElement root with
  | none => Except.error "Table format could be changed"
  | some tr => theadLoop tag_text_key attributes tr.children 1 []

/-- The `th` children of the `tr`, in document order. -/
def thList (items : List HtmlTree) : List HtmlTree :=
  items.filter (fun c => c.tag = "th")

/-- Their formatted visible texts. -/
def thTexts (items : List HtmlTree) : List String :=
  (thList items).map (fun th => format_tag_text th.text)

/-- The attribute pairs of one `th` that get keyed: non-empty value, name in
the attribute set. -/
def selectedAttrs (attrs : List String) (th : HtmlTree) :
    List (String × String) :=
  th.attrs.filter (fun nv => decide (nv.2 ≠ "" ∧ nv.1 ∈ attrs))

/-- All keyed attribute pairs of the header. -/
def selectedPairs (attrs : List String) (items : List HtmlTree) :
    List (String × String) :=
  (thList items).flatMap (selectedAttrs attrs)

/-! ### `adctest/pages/uicomponents/table.py`: column cell search

`r_xpath_column_cells_contains_text` builds the XPath string the driver
evaluates.  The driver's XPath engine is library code; it is modelled by a
small predicate AST (`XPathPred`), a printer shown equal to the string the
code builds, and an evaluator implementing XPath 1.0 semantics: a bare
number predicate is a `position()` test, but a number operand of `and` is
converted with `boolean()` — true iff non-zero — and is not positional. -/

def r_xpath_rows : String := "//tr"

def r_xpath_cells : String := "/td"

/-- `Table.r_xpath_column_cells_contains_text`. -/
def r_xpath_column_cells_contains_text (column_index : Nat) (text : String) :
    String :=
  r_xpath_rows ++ r_xpath_cells ++ "[contains(text(),\"" ++ text ++
    "\") and " ++ toString column_index ++ "]"

inductive XPathPred : Type where
  | containsText : String → XPathPred
  | num : Nat → XPathPred
  | and : XPathPred → XPathPred → XPathPred

def XPathPred.print : XPathPred → String
  | XPathPred.containsText t => "contains(text(),\"" ++ t ++ "\")"
  | XPathPred.num n => toString n
  | XPathPred.and a b => a.print ++ " and " ++ b.print

/-- The full `//tr/td[...]` selector string for a predicate. -/
def xpathSelectorPrint (p : XPathPred) : String :=
  "//tr" ++ "/td" ++ "[" ++ p.print ++ "]"

def leadsWith : List Char → List Char → Bool
  | [], _ => true
  | _ :: _, [] => false
  | a :: as, b :: bs => a = b && leadsWith as bs

def occursIn (n : List Char) : List Char → Bool
  | [] => leadsWith n []
  | x :: xs => leadsWith n (x :: xs) || occursIn n xs

/-- XPath `contains(haystack, needle)`. -/
def xpathContains (hay needle : String) : Bool :=
  occursIn needle.data hay.data

/-- Value of a predicate sub-expression in boolean context. -/
def XPathPred.evalBool (cellText : String) : XPathPred → Bool
  | XPathPred.containsText t => xpathContains cellText t
  | XPathPred.num n => n ≠ 0
  | XPathPred.and a b => a.evalBool cellText && b.evalBool cellText

/-- Top-level predicate evaluation: only a bare number is a positional
test. -/
def evalPredicate (p : XPathPred) (cellText : String) (position : Nat) :
    Bool :=
  match p with
  | XPathPred.num n => position = n
  | p => p.evalBool cellText

/-- `//tr/td[p]` over a table body given as rows of cell texts: every `td` of
every `tr` in document order, kept when the predicate holds; cells are
`(row, column, text)` with 1-based positions, the `td` position among its
siblings being its column. -/
def evalCellsSelector (body : List (List String)) (p : XPathPred) :
    List (Nat × Nat × String) :=
  (body.enum.flatMap
    (fun rc => rc.2.enum.map (fun cc => (rc.1 + 1, cc.1 + 1, cc.2)))).filter
    (fun cell => evalPredicate p cell.2.2 cell.2.1)

structure Column : Type where
  visible_name : String
  search_attr_name : Option String
  search_attr_value : Option String
deriving DecidableEq, Repr

/-- The visible-name branch of `Table.get_column_index`:
`columns_indexes.get('text', {}).get(visible_name)`, raising
`BaseTableException` when falsy. -/
def Table.getColumnIndexByName (columns_indexes : ThMap) (column : Column) :
    Except String (Option Nat) :=
  match pyLookup2 columns_indexes "text" column.visible_name with
  | none => Except.error "Cannot find index of column"
  | some 0 => Except.error "Cannot find index of column"
  | some i => Except.ok (some i)

/-- `Table.get_column_index`: the attribute value is preferred and looked up
without an error check (`None` when absent); the visible-name lookup raises
`BaseTableException` when falsy. -/
def Table.get_column_index (columns_indexes : ThMap) (column : Column) :
    Except String (Option Nat) :=
  match column.search_attr_value with
  | some v =>
    if v ≠ "" then
      Except.ok (pyLookup2 columns_indexes (column.search_attr_name.getD "") v)
    else
      Table.getColumnIndexByName columns_indexes column
  | none => Table.getColumnIndexByName columns_indexes column

/-- `Table._find_column_cells_by_visible_text`: resolve the column index and
evaluate the generated `//tr/td[contains(text(),"t") and i]` selector over
the body.  A `None` attribute-search index would render into the selector
and make it invalid. -/
def Table.find_column_cells_by_visible_text (columns_indexes : ThMap)
    (body : List (List String)) (column : Column) (text : String) :
    Except String (List (Nat × Nat × String)) :=
  match Table.get_column_index columns_indexes column with
  | Except.error e => Except.error e
  | Except.ok none => Except.error "invalid selector: and None"
  | Except.ok (some i) =>
    Except.ok (evalCellsSelector body
      (XPathPred.and (XPathPred.containsText text) (XPathPred.num i)))

/-! ### Theorems -/

theorem pyLookup_insert_self {α : Type} (d : List (String × α)) (k : String) (v : α) :
    pyLookup (pyInsert d k v) k = some v := by
  induction d with
  | nil => simp [pyInsert, pyLookup]
  | cons hd tl ih =>
    obtain ⟨k', v'⟩ := hd
    by_cases h : k' = k <;> simp [pyInsert, pyLookup, h, ih]

theorem pyLookup_insert_ne {α : Type} (d : List (String × α)) (k k' : String) (v : α)
    (h : k' ≠ k) : pyLookup (pyInsert d k v) k' = pyLookup d k' := by
  induction d with
  | nil => simp [pyInsert, pyLookup, Ne.symm h]
  | cons hd tl ih =>
    obtain ⟨a, b⟩ := hd
    by_cases ha : a = k
    · subst ha
      simp [pyInsert, pyLookup, Ne.symm h]
    · by_cases hb : a = k'
      · subst hb
        simp [pyInsert, pyLookup, ha, Ne.symm h]
      · simp [pyInsert, pyLookup, ha, hb, ih]

/-- C9: `str_or_bool` maps members of `TRUE_VALUES` to `True`, members of
`FALSE_VALUES` to `False`, leaves every other value unchanged, and is
idempotent. -/
theorem str_or_bool_spec :
    (∀ v ∈ TRUE_VALUES, str_or_bool v = PyVal.bool true) ∧
    (∀ v ∈ FALSE_VALUES, str_or_bool v = PyVal.bool false) ∧
    (∀ v : PyVal, pyIn v TRUE_VALUES = false → pyIn v FALSE_VALUES = false →
      str_or_bool v = v) ∧
    (∀ v : PyVal, str_or_bool (str_or_bool v) = str_or_bool v) := by
  refine ⟨?_, ?_, ?_, ?_⟩
  · intro v hv
    fin_cases hv <;> rfl
  · intro v hv
    fin_cases hv <;> rfl
  · intro v h1 h2
    simp [str_or_bool, h1, h2]
  · intro v
    by_cases h1 : pyIn v TRUE_VALUES
    · have ht : pyIn (PyVal.bool true) TRUE_VALUES = true := by decide
      simp [str_or_bool, h1, ht]
    · by_cases h2 : pyIn v FALSE_VALUES
      · have hf1 : pyIn (PyVal.bool false) TRUE_VALUES = false := by decide
        have hf2 : pyIn (PyVal.bool false) FALSE_VALUES = true := by decide
        simp [str_or_bool, h1, h2, hf1, hf2]
      · simp [str_or_bool, h1, h2]

/-- C9 witness: concrete evaluations of `str_or_bool_spec`. -/
theorem str_or_bool_spec_witness :
    str_or_bool (PyVal.str "yes") = PyVal.bool true ∧
    str_or_bool (PyVal.int 0) = PyVal.bool false ∧
    str_or_bool (PyVal.str "other") = PyVal.str "other" := by
  refine ⟨?_, ?_, ?_⟩
  · exact str_or_bool_spec.1 (PyVal.str "yes") (by decide)
  · exact str_or_bool_spec.2.1 (PyVal.int 0) (by decide)
  · exact str_or_bool_spec.2.2.1 (PyVal.str "other") (by decide) (by decide)

/-- C10 counterexample: with path `/obj/123` and query `id=abc` the `id`
parameter is present but does not parse as an int; the claim's "otherwise"
clause would return the path segment's value `123`, but the code returns
`None` without falling back to the path. -/
theorem get_id_from_url_counterexample :
    get_id_from_url ⟨"/obj/123", "id=abc"⟩ = none ∧
    firstQueryValue "id=abc" "id" = some "abc" ∧
    format_id "abc" = none ∧
    format_id (pathLastSegment "/obj/123") = some 123 := by
  refine ⟨by decide, by decide, by decide, by decide⟩

/-- C10 amended: when the query contains an `id` parameter (with a non-blank
value) the result is `format_id` of its first value, even when that is `None`;
otherwise, for a non-empty path, the result is `format_id` of the substring
after the last `/` (so `None` when the path ends with `/`); otherwise
`None`. -/
theorem get_id_from_url_amended (r : SplitResult) :
    (∀ v, r.query ≠ "" → firstQueryValue r.query "id" = some v →
      get_id_from_url r = format_id v) ∧
    ((r.query = "" ∨ firstQueryValue r.query "id" = none) → r.path ≠ "" →
      get_id_from_url r = format_id (pathLastSegment r.path)) ∧
    ((r.query = "" ∨ firstQueryValue r.query "id" = none) → r.path = "" →
      get_id_from_url r = none) := by
  refine ⟨?_, ?_, ?_⟩
  · intro v hq hv
    simp [get_id_from_url, hq, hv]
  · intro hq hp
    rcases hq with hq | hq <;> simp [get_id_from_url, hq, hp]
  · intro hq hp
    rcases hq with hq | hq <;> simp [get_id_from_url, hq, hp]

/-- C10 amended witness: the three cases of `get_id_from_url_amended` at
concrete URLs. -/
theorem get_id_from_url_amended_witness :
    get_id_from_url ⟨"/a/5", "id=7"⟩ = some 7 ∧
    get_id_from_url ⟨"/a/5/", ""⟩ = none ∧
    get_id_from_url ⟨"", ""⟩ = none := by
  refine ⟨?_, ?_, ?_⟩
  · have h := (get_id_from_url_amended ⟨"/a/5", "id=7"⟩).1 "7"
      (by decide) (by decide)
    have h7 : format_id "7" = some 7 := by decide
    rw [h, h7]
  · have h := (get_id_from_url_amended ⟨"/a/5/", ""⟩).2.1
      (Or.inl rfl) (by decide)
    have hn : format_id (pathLastSegment "/a/5/") = none := by decide
    rw [h, hn]
  · exact (get_id_from_url_amended ⟨"", ""⟩).2.2 (Or.inl rfl) rfl

/-! ### `adctest/parser/utils.py`: name formatting

`re.split(r'[-_\W]+', name)` and `re.split(r'[_\W]+', name)` split on maximal
runs of separator characters, keeping empty boundary pieces; `splitSepRuns`
reproduces that.  Character classes are the ASCII fragment: `\w` is
alphanumeric or underscore. -/

/-- C8: on stem `-9x` both formatters emit `9x`, which starts with a digit and
is not a valid Python identifier (the `p` prefix is only added when the first
character of the raw name is a digit, not when a leading separator is
stripped); on `-` the emitted module name is the empty string.  This
contradicts the claim and the functions' own docstrings. -/
theorem format_name_identifier_bug :
    format_name_to_python_format "-9x" = some "9x" ∧
    get_class_name_from_file_name "-9x" = some "9x" ∧
    isValidPythonIdentifier "9x" = false ∧
    format_name_to_python_format "-" = some "" ∧
    isValidPythonIdentifier "" = false := by
  refine ⟨by decide, by decide, by decide, by decide, by decide⟩

theorem printSearchValue_ne_empty (l : ListOfElementDescriptor) (n : String) :
    l.printSearchValue n ≠ "" := by
  intro h
  have := congrArg String.data h
  simp [ListOfElementDescriptor.printSearchValue, String.data_append] at this

/-- C6: `get` on a `ListOfElementDescriptor` built from `n` base parts raises
`BasePageException` unless exactly `n` arguments are passed; otherwise the
attribute name pairs each underscore-stripped base part with the stringified
argument (pairs and parts joined by `_`) and the produced descriptor locates
the element by XPath `//*[@<tag_attr_name>="<attr_name>"]`. -/
theorem list_descriptor_get_spec (base_name_parts : List String) (many : Bool)
    (tag_attr_name : String) (args : List Int) :
    (args.length ≠ base_name_parts.length →
      ∃ e, (ListOfElementDescriptor.make base_name_parts many
        tag_attr_name).getDescriptor args = Except.error e) ∧
    (args.length = base_name_parts.length →
      (ListOfElementDescriptor.make base_name_parts many
        tag_attr_name).getDescriptor args =
      Except.ok
        { search_by := "xpath",
          value := "//*[@" ++ tag_attr_name ++ "=\"" ++ String.intercalate "_"
            (((base_name_parts.map stripUnderscores).zip
              (args.map (fun n => toString n))).map
                (fun p => p.1 ++ "_" ++ p.2)) ++ "\"]",
          many := many,
          element_name := some (String.intercalate "_"
            (((base_name_parts.map stripUnderscores).zip
              (args.map (fun n => toString n))).map
                (fun p => p.1 ++ "_" ++ p.2))) }) := by
  have hfold : ∀ (ps : List (String × String)) (acc : List String),
      ps.foldl (fun acc val => acc ++ [val.1 ++ "_" ++ val.2]) acc =
      acc ++ ps.map (fun p => p.1 ++ "_" ++ p.2) := by
    intro ps
    induction ps with
    | nil => intro acc; simp
    | cons hd tl ih =>
      intro acc
      simp [ih, List.append_assoc]
  constructor
  · intro hne
    refine ⟨"You pass to get method wrong number of params", ?_⟩
    simp [ListOfElementDescriptor.getDescriptor,
      ListOfElementDescriptor.makeAttrName, ListOfElementDescriptor.make, hne]
  · intro heq
    have hlen : (args.map (fun n => toString n)).length =
        (base_name_parts.map stripUnderscores).length := by
      simpa using heq
    have hval : pyTruthyOptStr (some ((ListOfElementDescriptor.make
        base_name_parts many tag_attr_name).printSearchValue
          (String.intercalate "_"
            (((base_name_parts.map stripUnderscores).zip
              (args.map (fun n => toString n))).map
                (fun p => p.1 ++ "_" ++ p.2))))) = true := by
      simp [pyTruthyOptStr]
      exact printSearchValue_ne_empty _ _
    simp [ListOfElementDescriptor.getDescriptor,
      ListOfElementDescriptor.makeAttrName, ListOfElementDescriptor.make,
      hlen, hfold, ElementDescriptor.make, pyTruthyOptStr,
      ListOfElementDescriptor.printSearchValue] at hval ⊢
    simp [hval]

/-- C6 witness: a two-part descriptor list at concrete arguments, and the
wrong-arity error. -/
theorem list_descriptor_get_spec_witness :
    (ListOfElementDescriptor.make ["_row_", "col"] false
      "data-e2e").getDescriptor [1, 2] =
    Except.ok
      { search_by := "xpath", value := "//*[@data-e2e=\"row_1_col_2\"]",
        many := false, element_name := some "row_1_col_2" } ∧
    (∃ e, (ListOfElementDescriptor.make ["_row_", "col"] false
      "data-e2e").getDescriptor [1] = Except.error e) := by
  constructor
  · have h := (list_descriptor_get_spec ["_row_", "col"] false "data-e2e"
      [1, 2]).2 (by decide)
    rw [h]
    simp only [Except.ok.injEq]
    decide
  · exact (list_descriptor_get_spec ["_row_", "col"] false "data-e2e" [1]).1
      (by decide)

/-- C2: descriptor access checks `check_opened` first (even a cached entry is
not returned on a closed page); a present cache entry is returned identically
with no driver search; on a miss the element (or element list) is searched
once, wrapped, and stored under the attribute's name. -/
theorem element_descriptor_get_spec (d : ElementDescriptor) (name : String)
    (env : PageEnv) (cache : Cache) (hname : d.element_name = some name) :
    (env.opened = false →
      d.getOnPage env cache = (Except.error "PageNotOpened", cache, 0)) ∧
    (env.opened = true → ∀ v, pyLookup cache name = some v →
      d.getOnPage env cache = (Except.ok v, cache, 0)) ∧
    (env.opened = true → pyLookup cache name = none → d.many = false →
      ∀ e, env.findElement d.search_by d.value = some e →
      d.getOnPage env cache =
        (Except.ok (CacheVal.single (d.wrapProxy e)),
         pyInsert cache name (CacheVal.single (d.wrapProxy e)), 1)) ∧
    (env.opened = true → pyLookup cache name = none → d.many = true →
      env.findElements d.search_by d.value ≠ [] →
      d.getOnPage env cache =
        (Except.ok (CacheVal.many ((env.findElements d.search_by d.value).map
          d.wrapProxy)),
         pyInsert cache name (CacheVal.many ((env.findElements d.search_by
           d.value).map d.wrapProxy)), 1)) := by
  refine ⟨?_, ?_, ?_, ?_⟩
  · intro hop
    simp [ElementDescriptor.getOnPage, hop]
  · intro hop v hv
    simp [ElementDescriptor.getOnPage, hop, hname, hv]
  · intro hop hmiss hmany e he
    simp [ElementDescriptor.getOnPage, hop, hname, hmiss,
      ElementDescriptor.searchElement, hmany, he]
  · intro hop hmiss hmany hne
    rcases hes : env.findElements d.search_by d.value with _ | ⟨x, xs⟩
    · exact absurd hes hne
    · simp [ElementDescriptor.getOnPage, hop, hname, hmiss,
        ElementDescriptor.searchElement, hmany, hes]

/-- C2 witness: the cases of `element_descriptor_get_spec` at a concrete
descriptor, environment and cache. -/
theorem element_descriptor_get_spec_witness :
    (ElementDescriptor.getOnPage ⟨"xpath", "//a", false, some "link"⟩
      ⟨false, (fun _ _ => some 5), (fun _ _ => [5])⟩ []
      = (Except.error "PageNotOpened", [], 0)) ∧
    (ElementDescriptor.getOnPage ⟨"xpath", "//a", false, some "link"⟩
      ⟨true, (fun _ _ => some 5), (fun _ _ => [5])⟩
      [("link", CacheVal.single ⟨9, ("xpath", "//a"), some "link"⟩)]
      = (Except.ok (CacheVal.single ⟨9, ("xpath", "//a"), some "link"⟩),
         [("link", CacheVal.single ⟨9, ("xpath", "//a"), some "link"⟩)], 0)) ∧
    (ElementDescriptor.getOnPage ⟨"xpath", "//a", false, some "link"⟩
      ⟨true, (fun _ _ => some 5), (fun _ _ => [5])⟩ []
      = (Except.ok (CacheVal.single ⟨5, ("xpath", "//a"), some "link"⟩),
         [("link", CacheVal.single ⟨5, ("xpath", "//a"), some "link"⟩)], 1)) := by
  refine ⟨?_, ?_, ?_⟩
  · exact (element_descriptor_get_spec _ "link" _ [] rfl).1 rfl
  · exact (element_descriptor_get_spec _ "link" _ _ rfl).2.1 rfl _ (by decide)
  · exact (element_descriptor_get_spec _ "link" _ [] rfl).2.2.1 rfl (by decide)
      rfl 5 rfl

/-- C3: `_open` and `open_redirect_url` leave the page with an empty element
cache and the requested url loaded; both tab-focus methods empty the cache
when more than one tab is open and leave the whole state unchanged when
exactly one tab is open. -/
theorem navigation_cache_invalidation (s : PageState) (url : String) :
    (abstractPageOpen s url).cached_attrs = [] ∧
    (abstractPageOpen s url).current_url = url ∧
    (open_redirect_url s url).cached_attrs = [] ∧
    (open_redirect_url s url).current_url = url ∧
    (s.window_handles.length > 1 →
      (focus_on_last_opened_tab s).cached_attrs = [] ∧
      (focus_on_first_opened_tab s).cached_attrs = []) ∧
    (s.window_handles.length = 1 →
      focus_on_last_opened_tab s = s ∧ focus_on_first_opened_tab s = s) := by
  refine ⟨rfl, rfl, rfl, rfl, ?_, ?_⟩
  · intro h
    constructor
    · simp [focus_on_last_opened_tab, h, closeTabs]
    · simp [focus_on_first_opened_tab, h, closeTabs]
  · intro h
    have h1 : ¬ s.window_handles.length > 1 := by omega
    constructor
    · simp [focus_on_last_opened_tab, h1]
    · simp [focus_on_first_opened_tab, h1]

/-- C3 witness: a two-tab page state is reset by tab focusing, a one-tab
state is untouched, and `_open` clears a non-empty cache. -/
theorem navigation_cache_invalidation_witness :
    (abstractPageOpen
      ⟨[("el", CacheVal.single ⟨1, ("xpath", "//x"), some "el"⟩)], "u0",
        ["t1"], some "t1"⟩ "u1").cached_attrs = [] ∧
    (focus_on_last_opened_tab
      ⟨[("el", CacheVal.single ⟨1, ("xpath", "//x"), some "el"⟩)], "u0",
        ["t1", "t2"], some "t1"⟩).cached_attrs = [] ∧
    focus_on_last_opened_tab
      ⟨[("el", CacheVal.single ⟨1, ("xpath", "//x"), some "el"⟩)], "u0",
        ["t1"], some "t1"⟩ =
      ⟨[("el", CacheVal.single ⟨1, ("xpath", "//x"), some "el"⟩)], "u0",
        ["t1"], some "t1"⟩ := by
  refine ⟨?_, ?_, ?_⟩
  · exact (navigation_cache_invalidation _ "u1").1
  · exact ((navigation_cache_invalidation _ "u1").2.2.2.2.1 (by decide)).1
  · exact ((navigation_cache_invalidation _ "u1").2.2.2.2.2 (by decide)).1

/-- C7: `BasePageMeta` raises `BasePageException` when the collected class
attributes (own over inherited) lack a truthy `app_name`, when the app
config's `base_url` is not truthy, when `page_url` is absent (`None`), or
when any of the three loader/modal css classes resolves neither from the
class attributes nor from the app config; otherwise the class is created
with `page_url = urljoin(base_url, page_url)` and `valid_urls` the declared
urls plus `page_url`, each joined onto `base_url`. -/
theorem base_page_meta_new_spec (urljoin : String → String → String)
    (cfgmap : List (String × List (String × AttrVal)))
    (bases : List (List (String × AttrVal))) (attrs : List (String × AttrVal)) :
    (pyTruthyAttr ((pyLookup (pyUpdate (get_parents_classes_attrs bases) attrs)
        "app_name").getD AttrVal.pyNone) = false →
      BasePageMeta.new urljoin cfgmap bases attrs =
        Except.error (MetaError.basePageException
          "Page object must have \"app_name\" attribute")) ∧
    (∀ s cfg,
      pyLookup (pyUpdate (get_parents_classes_attrs bases) attrs) "app_name" =
        some (AttrVal.str s) →
      s ≠ "" → pyLookup cfgmap s = some cfg →
      (pyTruthyAttr ((pyLookup cfg "base_url").getD AttrVal.pyNone) = false →
        BasePageMeta.new urljoin cfgmap bases attrs =
          Except.error (MetaError.basePageException
            ("Base url not found in config for project " ++ s ++
              ". Fix it!!!"))) ∧
      (∀ b, pyLookup cfg "base_url" = some (AttrVal.str b) → b ≠ "" →
        ((pyLookup (pyUpdate (get_parents_classes_attrs bases) attrs)
            "page_url").getD AttrVal.pyNone = AttrVal.pyNone →
          BasePageMeta.new urljoin cfgmap bases attrs =
            Except.error (MetaError.basePageException
              "Page object must have \"page_url\" attribute")) ∧
        (∀ u l,
          pyLookup (pyUpdate (get_parents_classes_attrs bases) attrs)
            "page_url" = some (AttrVal.str u) →
          (pyLookup (pyUpdate (get_parents_classes_attrs bases) attrs)
            "valid_urls").getD (AttrVal.strList []) = AttrVal.strList l →
          ((resolveCssAttr (pyUpdate (get_parents_classes_attrs bases) attrs)
              cfg "page_loader_css_class" = AttrVal.pyNone ∨
            resolveCssAttr (pyUpdate (get_parents_classes_attrs bases) attrs)
              cfg "table_loader_css_class" = AttrVal.pyNone ∨
            resolveCssAttr (pyUpdate (get_parents_classes_attrs bases) attrs)
              cfg "modal_visible_css_class" = AttrVal.pyNone) →
            ∃ msg, BasePageMeta.new urljoin cfgmap bases attrs =
              Except.error (MetaError.basePageException msg)) ∧
          (resolveCssAttr (pyUpdate (get_parents_classes_attrs bases) attrs)
              cfg "page_loader_css_class" ≠ AttrVal.pyNone →
           resolveCssAttr (pyUpdate (get_parents_classes_attrs bases) attrs)
              cfg "table_loader_css_class" ≠ AttrVal.pyNone →
           resolveCssAttr (pyUpdate (get_parents_classes_attrs bases) attrs)
              cfg "modal_visible_css_class" ≠ AttrVal.pyNone →
            BasePageMeta.new urljoin cfgmap bases attrs =
              Except.ok
                { base_url := b,
                  page_url := urljoin b u,
                  valid_urls := (l ++ [u]).map (urljoin b),
                  has_page_ready_script :=
                    (pyLookup cfg "has_page_ready_script").getD
                      (AttrVal.bool false),
                  page_loader_css_class :=
                    resolveCssAttr (pyUpdate (get_parents_classes_attrs bases)
                      attrs) cfg "page_loader_css_class",
                  table_loader_css_class :=
                    resolveCssAttr (pyUpdate (get_parents_classes_attrs bases)
                      attrs) cfg "table_loader_css_class",
                  modal_visible_css_class :=
                    resolveCssAttr (pyUpdate (get_parents_classes_attrs bases)
                      attrs) cfg "modal_visible_css_class" })))) := by
  constructor
  · intro h
    simp [BasePageMeta.new, h]
  · intro s cfg hs hsne hcfg
    have htruthy : pyTruthyAttr ((pyLookup (pyUpdate
        (get_parents_classes_attrs bases) attrs) "app_name").getD
          AttrVal.pyNone) = true := by
      simp [hs, pyTruthyAttr, hsne]
    have hst : pyTruthyAttr (AttrVal.str s) = true := by
      simp [pyTruthyAttr, hsne]
    constructor
    · intro hb
      simp [BasePageMeta.new, hs, htruthy, hcfg, hb, hst]
    · intro b hbv hbne
      have hbtruthy : pyTruthyAttr ((pyLookup cfg "base_url").getD
          AttrVal.pyNone) = true := by
        simp [hbv, pyTruthyAttr, hbne]
      have hbt : pyTruthyAttr (AttrVal.str b) = true := by
        simp [pyTruthyAttr, hbne]
      constructor
      · intro hpu
        simp [BasePageMeta.new, hs, htruthy, hcfg, hbv, hbtruthy, hpu, hst, hbt]
      · intro u l hu hl
        constructor
        · intro hcss
          rcases hcss with hc | hc | hc
          · refine ⟨"page_loader_css_class attribute must be set in config" ++
              " for current app " ++ s, ?_⟩
            simp [BasePageMeta.new, hs, htruthy, hcfg, hbv, hbtruthy, hu, hl,
              hc, hst, hbt]
          · by_cases hp : resolveCssAttr (pyUpdate
              (get_parents_classes_attrs bases) attrs) cfg
                "page_loader_css_class" = AttrVal.pyNone
            · refine ⟨"page_loader_css_class attribute must be set in config"
                ++ " for current app " ++ s, ?_⟩
              simp [BasePageMeta.new, hs, htruthy, hcfg, hbv, hbtruthy, hu,
                hl, hp, hst, hbt]
            · refine ⟨"table_loader_css_class attribute must be set in config"
                ++ " for current app " ++ s, ?_⟩
              simp [BasePageMeta.new, hs, htruthy, hcfg, hbv, hbtruthy, hu,
                hl, hp, hc, hst, hbt]
          · by_cases hp : resolveCssAttr (pyUpdate
              (get_parents_classes_attrs bases) attrs) cfg
                "page_loader_css_class" = AttrVal.pyNone
            · refine ⟨"page_loader_css_class attribute must be set in config"
                ++ " for current app " ++ s, ?_⟩
              simp [BasePageMeta.new, hs, htruthy, hcfg, hbv, hbtruthy, hu,
                hl, hp, hst, hbt]
            · by_cases ht : resolveCssAttr (pyUpdate
                (get_parents_classes_attrs bases) attrs) cfg
                  "table_loader_css_class" = AttrVal.pyNone
              · refine ⟨"table_loader_css_class attribute must be set in" ++
                  " config" ++ " for current app " ++ s, ?_⟩
                simp [BasePageMeta.new, hs, htruthy, hcfg, hbv, hbtruthy, hu,
                  hl, hp, ht, hst, hbt]
              · refine ⟨"modal_visible_css_class attribute must be set in" ++
                  " config" ++ " for current app " ++ s, ?_⟩
                simp [BasePageMeta.new, hs, htruthy, hcfg, hbv, hbtruthy, hu,
                  hl, hp, ht, hc, hst, hbt]
        · intro h1 h2 h3
          simp [BasePageMeta.new, hs, htruthy, hcfg, hbv, hbtruthy, hu, hl,
            h1, h2, h3, hst, hbt]

/-- C7 witness: a concrete page class whose `app_name` and
`page_loader_css_class` come from a parent class, with a callable and a
dunder attribute skipped, built against a concrete app config. -/
theorem base_page_meta_new_spec_witness :
    BasePageMeta.new (fun b u => b ++ u)
      [("shop", [("base_url", AttrVal.str "http://s/"),
                 ("table_loader_css_class", AttrVal.str "tl"),
                 ("modal_visible_css_class", AttrVal.str "mv")])]
      [[("app_name", AttrVal.str "shop"),
        ("page_loader_css_class", AttrVal.str "ldr"),
        ("__doc__", AttrVal.str "d"), ("helper", AttrVal.callable)]]
      [("page_url", AttrVal.str "/cart"),
       ("valid_urls", AttrVal.strList ["/basket"])] =
    Except.ok ⟨"http://s/", "http://s//cart",
      ["http://s//basket", "http://s//cart"], AttrVal.bool false,
      AttrVal.str "ldr", AttrVal.str "tl", AttrVal.str "mv"⟩ := by
  have h1 := (base_page_meta_new_spec (fun b u => b ++ u)
    [("shop", [("base_url", AttrVal.str "http://s/"),
               ("table_loader_css_class", AttrVal.str "tl"),
               ("modal_visible_css_class", AttrVal.str "mv")])]
    [[("app_name", AttrVal.str "shop"),
      ("page_loader_css_class", AttrVal.str "ldr"),
      ("__doc__", AttrVal.str "d"), ("helper", AttrVal.callable)]]
    [("page_url", AttrVal.str "/cart"),
     ("valid_urls", AttrVal.strList ["/basket"])]).2 "shop"
    [("base_url", AttrVal.str "http://s/"),
     ("table_loader_css_class", AttrVal.str "tl"),
     ("modal_visible_css_class", AttrVal.str "mv")]
    (by decide) (by decide) (by decide)
  have h2 := h1.2 "http://s/" (by decide) (by decide)
  have h3 := h2.2 "/cart" ["/basket"] (by decide) (by decide)
  have h4 := h3.2 (by decide) (by decide) (by decide)
  rw [h4]
  simp only [Except.ok.injEq]
  decide

theorem pyContains_insert {α : Type} (d : List (String × α)) (k k' : String)
    (v : α) :
    pyContains (pyInsert d k v) k' = (decide (k' = k) || pyContains d k') := by
  by_cases h : k' = k
  · subst h
    simp [pyContains, pyLookup_insert_self]
  · simp [pyContains, pyLookup_insert_ne d k k' v h, h]

theorem pyLookup2_dictInsert2_self (m : ThMap) (a b : String) (v : Nat) :
    pyLookup2 (dictInsert2 m a b v) a b = some v := by
  simp [pyLookup2, dictInsert2, pyLookup_insert_self]

theorem pyLookup_dictInsert2_top_ne (m : ThMap) (a b : String) (v : Nat)
    (x : String) (hx : x ≠ a) :
    pyLookup (dictInsert2 m a b v) x = pyLookup m x := by
  simp [dictInsert2, pyLookup_insert_ne m a x _ hx]

theorem pyLookup2_dictInsert2_ne (m : ThMap) (a b : String) (v : Nat)
    (x y : String) (h : ¬(x = a ∧ y = b)) :
    pyLookup2 (dictInsert2 m a b v) x y = pyLookup2 m x y := by
  by_cases hx : x = a
  · subst hx
    have hy : y ≠ b := by
      intro hy
      exact h ⟨rfl, hy⟩
    simp [pyLookup2, dictInsert2, pyLookup_insert_self,
      pyLookup_insert_ne _ b y v hy]
  · simp [pyLookup2, pyLookup_dictInsert2_top_ne m a b v x hx]

theorem pyContains2_dictInsert2_mono (m : ThMap) (a b : String) (v : Nat)
    (x y : String) (h : pyContains2 m x y = true) :
    pyContains2 (dictInsert2 m a b v) x y = true := by
  by_cases hx : x = a
  · subst hx
    by_cases hy : y = b
    · subst hy
      simp [pyContains2, pyContains, pyLookup2_dictInsert2_self m x y v,
        pyLookup2] at *
      simp [dictInsert2, pyLookup_insert_self, pyLookup_insert_self]
    · have := pyLookup2_dictInsert2_ne m x b v x y (by tauto)
      simp [pyContains2, pyContains, pyLookup2] at h ⊢
      simp [pyLookup2] at this
      rw [this]
      exact h
  · have := pyLookup_dictInsert2_top_ne m a b v x hx
    simp [pyContains2, pyContains] at h ⊢
    rw [this]
    exact h

theorem attrFold_cons (attrs : List String) (idx : Nat)
    (nv : String × String) (tl : List (String × String)) (r : ThMap) :
    attrFold attrs idx (nv :: tl) r =
      attrFold attrs idx tl
        (if nv.2 ≠ "" ∧ nv.1 ∈ attrs then dictInsert2 r nv.1 nv.2 idx else r) :=
  rfl

theorem attrFold_preserve (attrs : List String) (idx : Nat)
    (l : List (String × String)) (r : ThMap) (x y : String)
    (h : (x, y) ∉ l.filter (fun nv => decide (nv.2 ≠ "" ∧ nv.1 ∈ attrs))) :
    pyLookup2 (attrFold attrs idx l r) x y = pyLookup2 r x y := by
  induction l generalizing r with
  | nil => rfl
  | cons nv tl ih =>
    rw [attrFold_cons]
    by_cases hsel : nv.2 ≠ "" ∧ nv.1 ∈ attrs
    · have hfil : (nv :: tl).filter
          (fun nv => decide (nv.2 ≠ "" ∧ nv.1 ∈ attrs)) =
          nv :: tl.filter (fun nv => decide (nv.2 ≠ "" ∧ nv.1 ∈ attrs)) := by
        simp [List.filter_cons, hsel]
      rw [hfil] at h
      have h1 : (x, y) ≠ nv := fun he => h (he ▸ List.mem_cons_self _ _)
      have h2 : (x, y) ∉ tl.filter
          (fun nv => decide (nv.2 ≠ "" ∧ nv.1 ∈ attrs)) :=
        fun hm => h (List.mem_cons_of_mem _ hm)
      have hne : ¬(x = nv.1 ∧ y = nv.2) := by
        intro hxy
        apply h1
        cases nv
        simp_all
      rw [if_pos hsel, ih _ h2]
      exact pyLookup2_dictInsert2_ne r nv.1 nv.2 idx x y hne
    · have hfil : (nv :: tl).filter
          (fun nv => decide (nv.2 ≠ "" ∧ nv.1 ∈ attrs)) =
          tl.filter (fun nv => decide (nv.2 ≠ "" ∧ nv.1 ∈ attrs)) := by
        simp [List.filter_cons, hsel]
      rw [hfil] at h
      rw [if_neg hsel]
      exact ih _ h

theorem attrFold_top_ne (attrs : List String) (idx : Nat)
    (l : List (String × String)) (r : ThMap) (k1 : String)
    (hk : k1 ∉ attrs) :
    pyLookup (attrFold attrs idx l r) k1 = pyLookup r k1 := by
  induction l generalizing r with
  | nil => rfl
  | cons nv tl ih =>
    rw [attrFold_cons]
    by_cases hsel : nv.2 ≠ "" ∧ nv.1 ∈ attrs
    · have hne : k1 ≠ nv.1 := by
        intro he
        exact hk (he ▸ hsel.2)
      rw [if_pos hsel, ih _]
      exact pyLookup_dictInsert2_top_ne r nv.1 nv.2 idx k1 hne
    · rw [if_neg hsel]
      exact ih _

theorem attrFold_sets (attrs : List String) (idx : Nat)
    (l : List (String × String)) (r : ThMap)
    (hnd : (l.filter (fun nv => decide (nv.2 ≠ "" ∧ nv.1 ∈ attrs))).Nodup) :
    ∀ nv ∈ l.filter (fun nv => decide (nv.2 ≠ "" ∧ nv.1 ∈ attrs)),
      pyLookup2 (attrFold attrs idx l r) nv.1 nv.2 = some idx := by
  induction l generalizing r with
  | nil => intro nv h; cases h
  | cons x tl ih =>
    rw [attrFold_cons]
    by_cases hsel : x.2 ≠ "" ∧ x.1 ∈ attrs
    · have hfil : (x :: tl).filter
          (fun nv => decide (nv.2 ≠ "" ∧ nv.1 ∈ attrs)) =
          x :: tl.filter (fun nv => decide (nv.2 ≠ "" ∧ nv.1 ∈ attrs)) := by
        simp [List.filter_cons, hsel]
      rw [hfil] at hnd
      intro nv hm
      rw [hfil] at hm
      rcases List.mem_cons.mp hm with he | hm2
      · subst he
        rw [if_pos hsel]
        have hx : nv ∉ tl.filter
            (fun nv => decide (nv.2 ≠ "" ∧ nv.1 ∈ attrs)) :=
          (List.nodup_cons.mp hnd).1
        have hx2 : (nv.1, nv.2) ∉ tl.filter
            (fun nv => decide (nv.2 ≠ "" ∧ nv.1 ∈ attrs)) := by
          rw [Prod.mk.eta]
          exact hx
        rw [attrFold_preserve attrs idx tl _ nv.1 nv.2 hx2]
        exact pyLookup2_dictInsert2_self r nv.1 nv.2 idx
      · rw [if_pos hsel]
        exact ih _ (List.nodup_cons.mp hnd).2 nv hm2
    · have hfil : (x :: tl).filter
          (fun nv => decide (nv.2 ≠ "" ∧ nv.1 ∈ attrs)) =
          tl.filter (fun nv => decide (nv.2 ≠ "" ∧ nv.1 ∈ attrs)) := by
        simp [List.filter_cons, hsel]
      rw [hfil] at hnd
      intro nv hm
      rw [hfil] at hm
      rw [if_neg hsel]
      exact ih _ hnd nv hm

theorem pyContains2_attrFold_mono (attrs : List String) (idx : Nat)
    (l : List (String × String)) (r : ThMap) (x y : String)
    (h : pyContains2 r x y = true) :
    pyContains2 (attrFold attrs idx l r) x y = true := by
  induction l generalizing r with
  | nil => exact h
  | cons nv tl ih =>
    rw [attrFold_cons]
    by_cases hsel : nv.2 ≠ "" ∧ nv.1 ∈ attrs
    · rw [if_pos hsel]
      exact ih _ (pyContains2_dictInsert2_mono r nv.1 nv.2 idx x y h)
    · rw [if_neg hsel]
      exact ih _ h

theorem pyContains_of_pyContains2 (m : ThMap) (a b : String)
    (h : pyContains2 m a b = true) : pyContains m a = true := by
  rcases hl : pyLookup m a with _ | bucket
  · simp [pyContains2, hl, pyContains, pyLookup] at h
  · simp [pyContains, hl]

theorem pyContains2_dictInsert2_same (m : ThMap) (a b : String) (v : Nat)
    (y : String) :
    pyContains2 (dictInsert2 m a b v) a y =
      (decide (y = b) || pyContains2 m a y) := by
  simp only [pyContains2, dictInsert2, pyLookup_insert_self, Option.getD_some]
  exact pyContains_insert _ b y v

theorem thTexts_cons_th (item : HtmlTree) (rest : List HtmlTree)
    (h : item.tag = "th") :
    thTexts (item :: rest) = format_tag_text item.text :: thTexts rest := by
  simp [thTexts, thList, List.filter_cons, h]

theorem thTexts_cons_nonth (item : HtmlTree) (rest : List HtmlTree)
    (h : ¬ item.tag = "th") :
    thTexts (item :: rest) = thTexts rest := by
  simp [thTexts, thList, List.filter_cons, h]

theorem thList_cons_th (item : HtmlTree) (rest : List HtmlTree)
    (h : item.tag = "th") :
    thList (item :: rest) = item :: thList rest := by
  simp [thList, List.filter_cons, h]

theorem thList_cons_nonth (item : HtmlTree) (rest : List HtmlTree)
    (h : ¬ item.tag = "th") :
    thList (item :: rest) = thList rest := by
  simp [thList, List.filter_cons, h]

theorem selectedPairs_cons_th (attrs : List String) (item : HtmlTree)
    (rest : List HtmlTree) (h : item.tag = "th") :
    selectedPairs attrs (item :: rest) =
      selectedAttrs attrs item ++ selectedPairs attrs rest := by
  simp [selectedPairs, thList_cons_th item rest h]

theorem selectedPairs_cons_nonth (attrs : List String) (item : HtmlTree)
    (rest : List HtmlTree) (h : ¬ item.tag = "th") :
    selectedPairs attrs (item :: rest) = selectedPairs attrs rest := by
  simp [selectedPairs, thList_cons_nonth item rest h]

theorem theadLoop_cons_th (k1 : String) (attrs : List String)
    (item : HtmlTree) (rest : List HtmlTree) (index : Nat) (res : ThMap)
    (hth : item.tag = "th")
    (hchk : (pyContains res k1 &&
      pyContains2 res k1 (format_tag_text item.text)) = false) :
    theadLoop k1 attrs (item :: rest) index res =
      theadLoop k1 attrs rest (index + 1)
        (attrFold attrs index item.attrs
          (dictInsert2 res k1 (format_tag_text item.text) index)) := by
  simp [theadLoop, hth, hchk]

theorem theadLoop_cons_th_dup (k1 : String) (attrs : List String)
    (item : HtmlTree) (rest : List HtmlTree) (index : Nat) (res : ThMap)
    (hth : item.tag = "th")
    (hchk : (pyContains res k1 &&
      pyContains2 res k1 (format_tag_text item.text)) = true) :
    theadLoop k1 attrs (item :: rest) index res =
      Except.error ("Duplicate value=" ++ format_tag_text item.text ++
        " of th.text in header of table") := by
  simp [theadLoop, hth, hchk]

theorem theadLoop_cons_nonth (k1 : String) (attrs : List String)
    (item : HtmlTree) (rest : List HtmlTree) (index : Nat) (res : ThMap)
    (hth : ¬ item.tag = "th") :
    theadLoop k1 attrs (item :: rest) index res =
      theadLoop k1 attrs rest index res := by
  simp [theadLoop, hth]

theorem theadLoop_preserve (k1 : String) (attrs : List String)
    (hk : k1 ∉ attrs) :
    ∀ (items : List HtmlTree) (idx : Nat) (res m : ThMap),
      theadLoop k1 attrs items idx res = Except.ok m →
      ∀ x y, (x = k1 → y ∉ thTexts items) →
        (∀ th ∈ thList items, (x, y) ∉ selectedAttrs attrs th) →
        pyLookup2 m x y = pyLookup2 res x y := by
  intro items
  induction items with
  | nil =>
    intro idx res m hm x y _ _
    simp only [theadLoop, Except.ok.injEq] at hm
    rw [hm]
  | cons item rest ih =>
    intro idx res m hm x y hx hsel
    by_cases hth : item.tag = "th"
    · rcases hchk : (pyContains res k1 &&
          pyContains2 res k1 (format_tag_text item.text)) with _ | _
      · rw [theadLoop_cons_th k1 attrs item rest idx res hth hchk] at hm
        have hx2 : x = k1 → y ∉ thTexts rest := by
          intro he
          have hmem := hx he
          rw [thTexts_cons_th item rest hth] at hmem
          exact fun hm2 => hmem (List.mem_cons_of_mem _ hm2)
        have hsel2 : ∀ th ∈ thList rest, (x, y) ∉ selectedAttrs attrs th := by
          intro th hmem
          apply hsel th
          rw [thList_cons_th item rest hth]
          exact List.mem_cons_of_mem _ hmem
        have hselitem : (x, y) ∉ selectedAttrs attrs item := by
          apply hsel item
          rw [thList_cons_th item rest hth]
          exact List.mem_cons_self _ _
        rw [ih (idx + 1) _ m hm x y hx2 hsel2]
        by_cases hxk : x = k1
        · subst hxk
          have htop := attrFold_top_ne attrs idx item.attrs
            (dictInsert2 res x (format_tag_text item.text) idx) x hk
          have hy : y ≠ format_tag_text item.text := by
            intro he
            apply hx rfl
            rw [thTexts_cons_th item rest hth, he]
            exact List.mem_cons_self _ _
          have hne := pyLookup2_dictInsert2_ne res x (format_tag_text item.text)
            idx x y (fun hc => hy hc.2)
          simp only [pyLookup2, htop]
          simpa [pyLookup2] using hne
        · have hone := attrFold_preserve attrs idx item.attrs
            (dictInsert2 res k1 (format_tag_text item.text) idx) x y hselitem
          rw [hone]
          exact pyLookup2_dictInsert2_ne res k1 (format_tag_text item.text)
            idx x y (fun hc => hxk hc.1)
      · rw [theadLoop_cons_th_dup k1 attrs item rest idx res hth hchk] at hm
        cases hm
    · rw [theadLoop_cons_nonth k1 attrs item rest idx res hth] at hm
      have hx2 : x = k1 → y ∉ thTexts rest := by
        intro he
        have hmem := hx he
        rw [thTexts_cons_nonth item rest hth] at hmem
        exact hmem
      have hsel2 : ∀ th ∈ thList rest, (x, y) ∉ selectedAttrs attrs th := by
        intro th hmem
        apply hsel th
        rw [thList_cons_nonth item rest hth]
        exact hmem
      exact ih idx res m hm x y hx2 hsel2

theorem theadLoop_dup (k1 : String) (attrs : List String) :
    ∀ (items : List HtmlTree) (idx : Nat) (res : ThMap),
      ((∃ t ∈ thTexts items, pyContains2 res k1 t = true) ∨
        ¬ (thTexts items).Nodup) →
      ∃ t, theadLoop k1 attrs items idx res =
        Except.error ("Duplicate value=" ++ t ++
          " of th.text in header of table") := by
  intro items
  induction items with
  | nil =>
    intro idx res h
    rcases h with ⟨t, ht, _⟩ | h
    · simp [thTexts, thList] at ht
    · simp [thTexts, thList] at h
  | cons item rest ih =>
    intro idx res h
    by_cases hth : item.tag = "th"
    · rcases hchk : (pyContains res k1 &&
          pyContains2 res k1 (format_tag_text item.text)) with _ | _
      · have hcf : pyContains2 res k1 (format_tag_text item.text) = false := by
          rcases hc2 : pyContains2 res k1 (format_tag_text item.text) with _ | _
          · rfl
          · have hc1 := pyContains_of_pyContains2 res k1 _ hc2
            rw [hc1, hc2] at hchk
            cases hchk
        rw [theadLoop_cons_th k1 attrs item rest idx res hth hchk]
        apply ih (idx + 1)
        have hmono : ∀ t, pyContains2 res k1 t = true →
            pyContains2 (attrFold attrs idx item.attrs
              (dictInsert2 res k1 (format_tag_text item.text) idx)) k1 t
              = true := by
          intro t ht
          apply pyContains2_attrFold_mono
          exact pyContains2_dictInsert2_mono res k1 _ idx k1 t ht
        have hself : pyContains2 (attrFold attrs idx item.attrs
            (dictInsert2 res k1 (format_tag_text item.text) idx)) k1
              (format_tag_text item.text) = true := by
          apply pyContains2_attrFold_mono
          rw [pyContains2_dictInsert2_same]
          simp
        rcases h with ⟨t, ht, hc⟩ | h
        · rw [thTexts_cons_th item rest hth] at ht
          rcases List.mem_cons.mp ht with he | hmem
          · rw [he] at hc
            rw [hc] at hcf
            cases hcf
          · exact Or.inl ⟨t, hmem, hmono t hc⟩
        · rw [thTexts_cons_th item rest hth, List.nodup_cons] at h
          by_cases hmem : format_tag_text item.text ∈ thTexts rest
          · exact Or.inl ⟨format_tag_text item.text, hmem, hself⟩
          · right
            intro hnd
            exact h ⟨hmem, hnd⟩
      · exact ⟨format_tag_text item.text,
          theadLoop_cons_th_dup k1 attrs item rest idx res hth hchk⟩
    · rw [theadLoop_cons_nonth k1 attrs item rest idx res hth]
      apply ih idx res
      rcases h with ⟨t, ht, hc⟩ | h
      · rw [thTexts_cons_nonth item rest hth] at ht
        exact Or.inl ⟨t, ht, hc⟩
      · rw [thTexts_cons_nonth item rest hth] at h
        exact Or.inr h

theorem mem_selectedAttrs_fst (attrs : List String) (th : HtmlTree)
    (nv : String × String) (h : nv ∈ selectedAttrs attrs th) : nv.1 ∈ attrs := by
  simp only [selectedAttrs, List.mem_filter, decide_eq_true_eq] at h
  exact h.2.2

theorem mem_selectedPairs_of_mem (attrs : List String)
    (items : List HtmlTree) (th : HtmlTree) (nv : String × String)
    (hth : th ∈ thList items) (hnv : nv ∈ selectedAttrs attrs th) :
    nv ∈ selectedPairs attrs items := by
  simp only [selectedPairs, List.mem_flatMap]
  exact ⟨th, hth, hnv⟩

theorem theadLoop_main (k1 : String) (attrs : List String) (hk : k1 ∉ attrs) :
    ∀ (items : List HtmlTree) (idx : Nat) (res : ThMap),
      (thTexts items).Nodup →
      (∀ t ∈ thTexts items, pyContains2 res k1 t = false) →
      (selectedPairs attrs items).Nodup →
      ∃ m, theadLoop k1 attrs items idx res = Except.ok m ∧
        ∀ j th, (thList items).get? j = some th →
          pyLookup2 m k1 (format_tag_text th.text) = some (idx + j) ∧
          ∀ nv ∈ selectedAttrs attrs th,
            pyLookup2 m nv.1 nv.2 = some (idx + j) := by
  intro items
  induction items with
  | nil =>
    intro idx res _ _ _
    refine ⟨res, rfl, ?_⟩
    intro j th hth
    simp [thList] at hth
  | cons item rest ih =>
    intro idx res hnd hfresh hpairs
    by_cases hth : item.tag = "th"
    · have hfmem : format_tag_text item.text ∈ thTexts (item :: rest) := by
        rw [thTexts_cons_th item rest hth]
        exact List.mem_cons_self _ _
      have hcf := hfresh _ hfmem
      have hchk : (pyContains res k1 &&
          pyContains2 res k1 (format_tag_text item.text)) = false := by
        rw [hcf]
        simp
      rw [thTexts_cons_th item rest hth, List.nodup_cons] at hnd
      obtain ⟨hfnotin, hnd2⟩ := hnd
      rw [selectedPairs_cons_th attrs item rest hth, List.nodup_append]
        at hpairs
      obtain ⟨nd1, nd2, disj⟩ := hpairs
      have hfresh2 : ∀ t ∈ thTexts rest,
          pyContains2 (attrFold attrs idx item.attrs
            (dictInsert2 res k1 (format_tag_text item.text) idx)) k1 t
            = false := by
        intro t ht
        have htop := attrFold_top_ne attrs idx item.attrs
          (dictInsert2 res k1 (format_tag_text item.text) idx) k1 hk
        have hstep : pyContains2 (attrFold attrs idx item.attrs
            (dictInsert2 res k1 (format_tag_text item.text) idx)) k1 t =
            pyContains2 (dictInsert2 res k1 (format_tag_text item.text) idx)
              k1 t := by
          simp only [pyContains2, htop]
        rw [hstep, pyContains2_dictInsert2_same]
        have hne : t ≠ format_tag_text item.text := by
          intro he
          exact hfnotin (he ▸ ht)
        have hf2 : pyContains2 res k1 t = false := by
          apply hfresh
          rw [thTexts_cons_th item rest hth]
          exact List.mem_cons_of_mem _ ht
        simp [hne, hf2]
      obtain ⟨m, hmeq, hprops⟩ := ih (idx + 1)
        (attrFold attrs idx item.attrs
          (dictInsert2 res k1 (format_tag_text item.text) idx))
        hnd2 hfresh2 nd2
      refine ⟨m, ?_, ?_⟩
      · rw [theadLoop_cons_th k1 attrs item rest idx res hth hchk]
        exact hmeq
      · intro j th2 hth2
        rw [thList_cons_th item rest hth] at hth2
        match j, hth2 with
        | 0, hth2 =>
          rw [List.get?_cons_zero, Option.some.injEq] at hth2
          subst hth2
          constructor
          · have hpres := theadLoop_preserve k1 attrs hk rest (idx + 1) _ m
              hmeq k1 (format_tag_text item.text)
              (fun _ => hfnotin)
              (fun th3 hth3 hmem => by
                have := mem_selectedAttrs_fst attrs th3 _ hmem
                exact hk this)
            rw [hpres]
            have htop := attrFold_top_ne attrs idx item.attrs
              (dictInsert2 res k1 (format_tag_text item.text) idx) k1 hk
            have hstep : pyLookup2 (attrFold attrs idx item.attrs
                (dictInsert2 res k1 (format_tag_text item.text) idx)) k1
                  (format_tag_text item.text) =
                pyLookup2 (dictInsert2 res k1 (format_tag_text item.text) idx)
                  k1 (format_tag_text item.text) := by
              simp only [pyLookup2, htop]
            rw [hstep, pyLookup2_dictInsert2_self, Nat.add_zero]
          · intro nv hnv
            have hnvfst := mem_selectedAttrs_fst attrs item nv hnv
            have hnvk1 : nv.1 ≠ k1 := by
              intro he
              exact hk (he ▸ hnvfst)
            have hpres := theadLoop_preserve k1 attrs hk rest (idx + 1) _ m
              hmeq nv.1 nv.2
              (fun he => absurd he hnvk1)
              (fun th3 hth3 hmem => by
                have hin := mem_selectedPairs_of_mem attrs rest th3
                  (nv.1, nv.2) hth3 hmem
                rw [Prod.mk.eta] at hin
                exact (List.disjoint_left.mp disj) hnv hin)
            rw [hpres]
            have hsets := attrFold_sets attrs idx item.attrs
              (dictInsert2 res k1 (format_tag_text item.text) idx) nd1 nv hnv
            rw [hsets, Nat.add_zero]
        | j + 1, hth2 =>
          rw [List.get?_cons_succ] at hth2
          have hp := hprops j th2 hth2
          have harith : idx + 1 + j = idx + (j + 1) := by omega
          rw [harith] at hp
          exact hp
    · rw [thTexts_cons_nonth item rest hth] at hnd
      have hfresh2 : ∀ t ∈ thTexts rest, pyContains2 res k1 t = false := by
        intro t ht
        apply hfresh
        rw [thTexts_cons_nonth item rest hth]
        exact ht
      rw [selectedPairs_cons_nonth attrs item rest hth] at hpairs
      obtain ⟨m, hmeq, hprops⟩ := ih idx res hnd hfresh2 hpairs
      refine ⟨m, ?_, ?_⟩
      · rw [theadLoop_cons_nonth k1 attrs item rest idx res hth]
        exact hmeq
      · intro j th2 hth2
        rw [thList_cons_nonth item rest hth] at hth2
        exact hprops j th2 hth2

/-- C4 (amended): `parse_table_thead` raises `ValueError` when no `tr` is
found and when two `th` children share the same formatted text; when the
text key is not itself a searched attribute name and no two `th`s share an
(attribute, value) pair, it returns a mapping giving the `j`-th `th` child
(0-based, document order) the index `1 + j` under the text key by its
formatted text, and under every attribute name in the set whose value on
that `th` is non-empty. -/
theorem parse_table_thead_spec (root : HtmlTree) (tag_text_key : String)
    (attributes : List String) :
    (findTrElement root = none →
      parse_table_thead root tag_text_key attributes =
        Except.error "Table format could be changed") ∧
    (∀ tr, findTrElement root = some tr →
      ¬ (thTexts tr.children).Nodup →
      ∃ t, parse_table_thead root tag_text_key attributes =
        Except.error ("Duplicate value=" ++ t ++
          " of th.text in header of table")) ∧
    (∀ tr, findTrElement root = some tr →
      tag_text_key ∉ attributes →
      (thTexts tr.children).Nodup →
      (selectedPairs attributes tr.children).Nodup →
      ∃ m, parse_table_thead root tag_text_key attributes = Except.ok m ∧
        ∀ j th, (thList tr.children).get? j = some th →
          pyLookup2 m tag_text_key (format_tag_text th.text) = some (1 + j) ∧
          ∀ nv ∈ selectedAttrs attributes th,
            pyLookup2 m nv.1 nv.2 = some (1 + j)) := by
  refine ⟨?_, ?_, ?_⟩
  · intro h
    simp [parse_table_thead, h]
  · intro tr htr hdup
    obtain ⟨t, ht⟩ := theadLoop_dup tag_text_key attributes tr.children 1 []
      (Or.inr hdup)
    refine ⟨t, ?_⟩
    simp [parse_table_thead, htr, ht]
  · intro tr htr hk hnd hpairs
    have hfresh : ∀ t ∈ thTexts tr.children,
        pyContains2 [] tag_text_key t = false := by
      intro t _
      rfl
    obtain ⟨m, hm, hp⟩ := theadLoop_main tag_text_key attributes hk
      tr.children 1 [] hnd hfresh hpairs
    refine ⟨m, ?_, hp⟩
    simp [parse_table_thead, htr, hm]

/-- C4 counterexample to the claim as stated: two `th`s carry the same
searched attribute pair `data-col="x"`; the parser does not reject this, the
later `th` silently overwrites, so the first `th` is not keyed under its
attribute value (`x ↦ 2`, not `1`). -/
theorem parse_table_thead_counterexample :
    parse_table_thead
      (HtmlTree.node "tr" none []
        [HtmlTree.node "th" (some "A") [("data-col", "x")] [],
         HtmlTree.node "th" (some "B") [("data-col", "x")] []])
      "text" ["data-col"] =
      Except.ok [("text", [("A", 1), ("B", 2)]), ("data-col", [("x", 2)])] ∧
    pyLookup2 [("text", [("A", 1), ("B", 2)]), ("data-col", [("x", 2)])]
      "data-col" "x" = some 2 ∧
    ¬ pyLookup2 [("text", [("A", 1), ("B", 2)]), ("data-col", [("x", 2)])]
      "data-col" "x" = some 1 := by
  refine ⟨rfl, by decide, by decide⟩

/-- C4 witness: a `tr` with two `th`s (one text padded with whitespace and a
newline, one with a blank attribute value), run through
`parse_table_thead_spec`. -/
theorem parse_table_thead_spec_witness :
    parse_table_thead
      (HtmlTree.node "tr" none []
        [HtmlTree.node "th" (some " A\n") [("data-col", "x1")] [],
         HtmlTree.node "th" (some "B") [("data-col", "")] []])
      "text" ["data-col"] =
      Except.ok [("text", [("A", 1), ("B", 2)]), ("data-col", [("x1", 1)])] ∧
    pyLookup2 [("text", [("A", 1), ("B", 2)]), ("data-col", [("x1", 1)])]
      "text" "A" = some 1 ∧
    pyLookup2 [("text", [("A", 1), ("B", 2)]), ("data-col", [("x1", 1)])]
      "text" "B" = some 2 ∧
    pyLookup2 [("text", [("A", 1), ("B", 2)]), ("data-col", [("x1", 1)])]
      "data-col" "x1" = some 1 := by
  obtain ⟨m, hm, hp⟩ := (parse_table_thead_spec
    (HtmlTree.node "tr" none []
      [HtmlTree.node "th" (some " A\n") [("data-col", "x1")] [],
       HtmlTree.node "th" (some "B") [("data-col", "")] []])
    "text" ["data-col"]).2.2
    (HtmlTree.node "tr" none []
      [HtmlTree.node "th" (some " A\n") [("data-col", "x1")] [],
       HtmlTree.node "th" (some "B") [("data-col", "")] []])
    rfl (by decide) (by decide) (by decide)
  have hcomp : parse_table_thead
      (HtmlTree.node "tr" none []
        [HtmlTree.node "th" (some " A\n") [("data-col", "x1")] [],
         HtmlTree.node "th" (some "B") [("data-col", "")] []])
      "text" ["data-col"] =
      Except.ok [("text", [("A", 1), ("B", 2)]), ("data-col", [("x1", 1)])] :=
    rfl
  rw [hm, Except.ok.injEq] at hcomp
  subst hcomp
  refine ⟨hm, ?_, ?_, ?_⟩
  · have h0 := (hp 0 (HtmlTree.node "th" (some " A\n") [("data-col", "x1")] [])
      rfl).1
    simpa using h0
  · have h1 := (hp 1 (HtmlTree.node "th" (some "B") [("data-col", "")] [])
      rfl).1
    simpa using h1
  · have h0 := (hp 0 (HtmlTree.node "th" (some " A\n") [("data-col", "x1")] [])
      rfl).2 ("data-col", "x1") (by decide)
    simpa using h0

/-- C5: the XPath emitted for a column search uses the column index as a
constant operand of `and` — truthy for every index ≥ 1 — rather than a
positional filter.  At a two-column table (header `A`, `B`; body row
`["x", "y"]`), searching column `B` for `"x"` returns the column-`A` cell,
contradicting the claim and the method's docstring.  The conjuncts: the
string the code builds, the AST printing to that exact string, the header
parse feeding `columns_indexes`, the wrong result, and that the predicate
ignores the position while a bare-number predicate would not. -/
theorem find_column_cells_bug :
    r_xpath_column_cells_contains_text 2 "x" =
      "//tr/td[contains(text(),\"x\") and 2]" ∧
    xpathSelectorPrint
      (XPathPred.and (XPathPred.containsText "x") (XPathPred.num 2)) =
      r_xpath_column_cells_contains_text 2 "x" ∧
    parse_table_thead
      (HtmlTree.node "tr" none []
        [HtmlTree.node "th" (some "A") [] [],
         HtmlTree.node "th" (some "B") [] []]) "text" [] =
      Except.ok [("text", [("A", 1), ("B", 2)])] ∧
    Table.find_column_cells_by_visible_text [("text", [("A", 1), ("B", 2)])]
      [["x", "y"]] ⟨"B", none, none⟩ "x" =
      Except.ok [(1, 1, "x")] ∧
    (evalPredicate (XPathPred.and (XPathPred.containsText "x")
      (XPathPred.num 2)) "x" 1 = true) ∧
    (evalPredicate (XPathPred.num 2) "x" 1 = false) := by
  refine ⟨rfl, rfl, rfl, rfl, by decide, by decide⟩
